import Mathlib

/-!
Verification of the edge-tech recurring-payment pipeline and cart service.

The definitions below are a shallow embedding of the TypeScript sources:
- `src/server/services/Cart.service.ts` (cart aggregator),
- `src/server/services/subscription_service/Worker.service.ts` (billing worker).
Collaborators whose implementation is not in the source tree
(`Shipping.service.ts`, `Order.service.ts`) are modelled from the spec and
marked as such in their doc comments.
-/

namespace EdgeTech

/-! ## Cart data model (Sequelize tables `Cart`, `CartItem`) -/

/-- A row of the `Cart` table: one cart per customer. -/
structure CartRow where
  id : Nat
  customerId : Nat
deriving DecidableEq, Repr

/-- A row of the `CartItem` table. `id` is the auto-increment primary key;
`save` writes an instance back by this key. -/
structure CartItemRow where
  id : Nat
  cartId : Nat
  productId : Nat
  quantity : Nat
deriving DecidableEq, Repr

/-- The relational state the cart service touches, with the auto-increment
counter for `CartItem` primary keys. -/
structure CartDB where
  carts : List CartRow
  items : List CartItemRow
  nextItemId : Nat
deriving DecidableEq, Repr

/-- Errors thrown by `Cart.service.ts`. -/
inductive CartError where
  | cartNotFound
  | cartItemNotFound
deriving DecidableEq, Repr

/-- `CartService.addItemToCart(customerId, productId, quantity)`.
Mirrors the source: `Cart.findOne({where:{customerId}})`, then
`CartItem.findOrCreate({where:{productId}, defaults:{cartId, productId,
quantity}})` — the lookup is by `productId` alone — and on a found row
`item.quantity += quantity; item.save()`. -/
def addItemToCart (db : CartDB) (customerId productId quantity : Nat) :
    Except CartError CartDB :=
  match db.carts.find? (fun c => c.customerId == customerId) with
  | none => .error .cartNotFound
  | some cart =>
    match db.items.find? (fun i => i.productId == productId) with
    | some item =>
        .ok { db with
          items := db.items.map (fun i =>
            if i.id == item.id then { i with quantity := i.quantity + quantity } else i) }
    | none =>
        .ok { db with
          items := db.items ++ [⟨db.nextItemId, cart.id, productId, quantity⟩],
          nextItemId := db.nextItemId + 1 }

/-- `CartService.removeItemFromCart(customerId, productId)`.
Mirrors the source: find the cart, find the item by `{cartId, productId}`;
quantity above one decrements and saves, otherwise `item.destroy()` deletes
the row (the following `item.save()` is an UPDATE on a deleted primary key,
which affects no rows). -/
def removeItemFromCart (db : CartDB) (customerId productId : Nat) :
    Except CartError CartDB :=
  match db.carts.find? (fun c => c.customerId == customerId) with
  | none => .error .cartNotFound
  | some cart =>
    match db.items.find? (fun i => i.cartId == cart.id && i.productId == productId) with
    | none => .error .cartItemNotFound
    | some item =>
      if item.quantity > 1 then
        .ok { db with
          items := db.items.map (fun i =>
            if i.id == item.id then { i with quantity := i.quantity - 1 } else i) }
      else
        .ok { db with items := db.items.filter (fun i => !(i.id == item.id)) }

/-! ## Billing pipeline data model (Worker.service.ts and collaborators) -/

/-- An entry of `job.data.orderItems`. -/
structure OrderItem where
  productId : Nat
  quantity : Nat
deriving DecidableEq, Repr

/-- A row of the `Product` table, restricted to the attributes the pipeline
reads: the current `price` and (for the shipping collaborator) the `weight`. -/
structure ProductRow where
  id : Nat
  price : ℚ
  weight : ℚ
deriving DecidableEq, Repr

/-- The three shipping weight tiers (`WeightRange` in the source). -/
inductive WeightRange where
  | light
  | standard
  | heavy
deriving DecidableEq, Repr

/-- A billing job as enqueued: the bullmq job id together with the payload
fields the worker reads from `job.data` (plus `shippingMethod`, which the
queue contract says the payload carries). `period` is a duration in
milliseconds, dates are in milliseconds since the epoch. -/
structure BillingJob where
  id : Nat
  userId : Nat
  orderItems : List OrderItem
  paymentMethodId : Nat
  paymentMethod : String
  currency : String
  shippingCountry : String
  shippingMethod : String
  startDate : Nat
  endDate : Nat
  period : Nat
deriving DecidableEq, Repr

/-- Typed errors of the pipeline (the source's error classes). -/
inductive PipelineError where
  | productNotFound
  | userNotFound
  | shippingLocationNotFound
  | shippingMethodNotFound
  | paymentFailed
deriving DecidableEq, Repr

/-- How a job run can fail at the queue level: either surfacing a typed
pipeline error, or the generic wrapper error the worker processor throws
in its catch block (carrying only the queue name). -/
inductive JobFailure where
  | pipeline (e : PipelineError)
  | workerWrapped (queueName : String)
deriving DecidableEq, Repr

/-- The arguments of one `paymentService.createPaymentIntent` call, exactly
as the worker passes them. -/
structure ChargeCall where
  userId : Nat
  amount : ℚ
  currency : String
  paymentMethodId : Nat
deriving DecidableEq, Repr

/-- The (destination, method) arguments of one
`shippingService.calculateShippingCost` call. -/
structure ShippingCall where
  country : String
  method : String
deriving DecidableEq, Repr

/-- A shipping quote: cost plus weight tier. -/
structure ShippingQuote where
  cost : ℚ
  weightRange : WeightRange
deriving DecidableEq, Repr

/-- Modelled from the spec: the rate configuration of the Shipping Cost
Calculator (`Shipping.service.ts` is not in the source tree). Country rates
and method multipliers are key-to-rate mappings; weights are bucketed into
the three fixed tiers by two configured thresholds. -/
structure ShippingConfig where
  countryRates : List (String × ℚ)
  methodMultipliers : List (String × ℚ)
  tierMultiplier : WeightRange → ℚ
  lightMax : ℚ
  standardMax : ℚ

/-- Modelled from the spec: total weight of an item list, summing per-product
weights; fails `ProductNotFoundError` when an item references no product. -/
def computeWeight (products : List ProductRow) :
    List OrderItem → Except PipelineError ℚ
  | [] => .ok 0
  | item :: rest =>
    match products.find? (fun p => p.id == item.productId) with
    | none => .error .productNotFound
    | some p =>
      match computeWeight products rest with
      | .error e => .error e
      | .ok w => .ok (p.weight * item.quantity + w)

/-- Modelled from the spec: tier bucketing by the configured thresholds. -/
def weightTier (cfg : ShippingConfig) (w : ℚ) : WeightRange :=
  if w ≤ cfg.lightMax then .light
  else if w ≤ cfg.standardMax then .standard
  else .heavy

/-- Modelled from the spec: `ShippingService.calculateShippingCost` —
`Shipping.service.ts` is not in the source tree. Weight is supplied directly
or derived from the items; cost is base country rate times method multiplier
times weight-tier multiplier; each rate lookup fails with its own error. -/
def calculateShippingCost (cfg : ShippingConfig) (products : List ProductRow)
    (country method : String) (weightArg : Option ℚ) (items : List OrderItem) :
    Except PipelineError ShippingQuote :=
  match (match weightArg with
         | some w => Except.ok w
         | none => computeWeight products items : Except PipelineError ℚ) with
  | .error e => .error e
  | .ok w =>
    match cfg.countryRates.lookup country with
    | none => .error .shippingLocationNotFound
    | some base =>
      match cfg.methodMultipliers.lookup method with
      | none => .error .shippingMethodNotFound
      | some mult =>
        let tier := weightTier cfg w
        .ok ⟨base * mult * cfg.tierMultiplier tier, tier⟩

/-- `productTotal`: sums `product.price * item.quantity` over the job's
items, failing `ProductNotFoundError` when a product row is absent
(Worker.service.ts lines 23-35). -/
def sumPrices (products : List ProductRow) :
    List OrderItem → Except PipelineError ℚ
  | [] => .ok 0
  | item :: rest =>
    match products.find? (fun p => p.id == item.productId) with
    | none => .error .productNotFound
    | some p =>
      match sumPrices products rest with
      | .error e => .error e
      | .ok s => .ok (p.price * item.quantity + s)

/-- `parseFloat(x.toFixed(2))`: rounding to two decimal places. -/
def round2 (q : ℚ) : ℚ := ((q * 100 + 1 / 2).floor : ℚ) / 100

/-- Environment knobs for the effects outside the worker's own code: whether
the gateway rejects the charge, and whether the datastore fails the
`Subscription.create` write. -/
structure Env where
  paymentFails : Bool
  subCreateFails : Bool
deriving DecidableEq, Repr

deriving instance DecidableEq for Except

/-- The observable result of `processPayment`: the returned weight range or
the thrown error, together with the shipping-service and gateway calls it
issued. -/
structure ProcessResult where
  result : Except PipelineError WeightRange
  shippingCalls : List ShippingCall
  charges : List ChargeCall
deriving DecidableEq, Repr

/-- `processPayment(job)` (Worker.service.ts lines 19-59): sum product
prices; call the shipping calculator with the job's country and the literal
method `"next-day"`; round the total to two decimals; call
`createPaymentIntent(userId, totalAmount, currency, paymentMethodId)`. -/
def processPayment (env : Env) (products : List ProductRow)
    (cfg : ShippingConfig) (job : BillingJob) : ProcessResult :=
  match sumPrices products job.orderItems with
  | .error e => ⟨.error e, [], []⟩
  | .ok productTotal =>
    let sc : ShippingCall := ⟨job.shippingCountry, "next-day"⟩
    match calculateShippingCost cfg products job.shippingCountry "next-day"
        none job.orderItems with
    | .error e => ⟨.error e, [sc], []⟩
    | .ok quote =>
      let totalAmount := round2 (productTotal + quote.cost)
      let call : ChargeCall :=
        ⟨job.userId, totalAmount, job.currency, job.paymentMethodId⟩
      if env.paymentFails then ⟨.error .paymentFailed, [sc], [call]⟩
      else ⟨.ok quote.weightRange, [sc], [call]⟩

/-! ## Persistence model: Order, OrderItem, Subscription -/

/-- Order lifecycle status. -/
inductive OrderStatus where
  | pending
  | delivered
  | cancelled
deriving DecidableEq, Repr

/-- A row of the `Order` table (header fields the pipeline writes). -/
structure OrderRow where
  id : Nat
  customerId : Nat
  paymentMethod : String
  shippingCountry : String
  weightRange : WeightRange
  shippingMethod : String
  status : OrderStatus
deriving DecidableEq, Repr

/-- A row of the `OrderItem` table: productId, quantity and the unit price
snapshotted at order time. -/
structure OrderItemRow where
  orderId : Nat
  productId : Nat
  quantity : Nat
  unitPrice : ℚ
deriving DecidableEq, Repr

/-- A row of the `Subscription` table, with the fields the worker writes.
Dates are day numbers (the source stores the date part of an ISO string). -/
structure SubscriptionRow where
  customerId : Nat
  orderId : Nat
  startDate : Nat
  endDate : Nat
  lastPaymentDate : Nat
  nextPaymentDate : Nat
deriving DecidableEq, Repr

/-- The relational state the completed-job handler touches. -/
structure PipeDB where
  orders : List OrderRow
  orderItems : List OrderItemRow
  subscriptions : List SubscriptionRow
  nextOrderId : Nat
deriving DecidableEq, Repr

/-- Snapshot the current price of every item, failing `ProductNotFoundError`
when a product is absent. -/
def snapshotPrices (products : List ProductRow) :
    List OrderItem → Except PipelineError (List (OrderItem × ℚ))
  | [] => .ok []
  | item :: rest =>
    match products.find? (fun p => p.id == item.productId) with
    | none => .error .productNotFound
    | some p =>
      match snapshotPrices products rest with
      | .error e => .error e
      | .ok tl => .ok ((item, p.price) :: tl)

/-- Modelled from the spec: `OrderService.createOrder` (`Order.service.ts`
is not in the source tree). Validates product and customer existence,
snapshots current prices, and writes the Order header plus all OrderItems
into the caller-supplied transaction, here the draft state `db`. -/
def createOrder (products : List ProductRow) (customers : List Nat)
    (db : PipeDB) (customerId : Nat) (items : List OrderItem)
    (paymentMethod shippingCountry : String) (weightRange : WeightRange)
    (shippingMethod : String) : Except PipelineError (PipeDB × OrderRow) :=
  match snapshotPrices products items with
  | .error e => .error e
  | .ok priced =>
    if customers.contains customerId then
      let order : OrderRow :=
        ⟨db.nextOrderId, customerId, paymentMethod, shippingCountry,
         weightRange, shippingMethod, .pending⟩
      .ok ({ db with
               orders := db.orders ++ [order],
               orderItems := db.orderItems ++
                 priced.map (fun pr => ⟨order.id, pr.1.productId, pr.1.quantity, pr.2⟩),
               nextOrderId := db.nextOrderId + 1 },
           order)
    else .error .userNotFound

/-- Milliseconds per day; `toISOString().split('T')[0]` keeps the date part,
i.e. the epoch-millisecond instant truncated to days. -/
def msPerDay : Nat := 86400000

/-- The day number of an epoch-millisecond instant. -/
def dayOf (t : Nat) : Nat := t / msPerDay

/-- The observable outcome of the worker's `completed`-event handler. -/
structure HandlerResult where
  db : PipeDB
  committed : Bool
  loggedPersistError : Bool
  alertInvoked : Bool
  jobMarkedFailed : Bool
deriving DecidableEq, Repr

/-- The `completed`-event handler (Worker.service.ts lines 91-131): compute
`paymentDate = today` and `nextPaymentDate = date of (now + period)`, open a
transaction, create the Order (passing the transaction) with the literal
shipping method `"next-day"`, create the Subscription row, commit; on any
error roll the transaction back and log — nothing is alerted and the job is
not marked failed. -/
def onCompleted (products : List ProductRow) (customers : List Nat)
    (subCreateFails : Bool) (now : Nat) (db : PipeDB) (job : BillingJob)
    (returnValue : WeightRange) : HandlerResult :=
  let paymentDate := dayOf now
  let nextPaymentDate := dayOf (now + job.period)
  match createOrder products customers db job.userId job.orderItems
      job.paymentMethod job.shippingCountry returnValue "next-day" with
  | .error _ => ⟨db, false, true, false, false⟩
  | .ok (draft, order) =>
    if subCreateFails then ⟨db, false, true, false, false⟩
    else
      let sub : SubscriptionRow :=
        ⟨order.customerId, order.id, job.startDate, job.endDate,
         paymentDate, nextPaymentDate⟩
      ⟨{ draft with subscriptions := draft.subscriptions ++ [sub] },
       true, false, false, false⟩

/-- The queue-level outcome of one job run. -/
inductive JobOutcome where
  | completed (wr : WeightRange)
  | failed (e : JobFailure)
deriving DecidableEq, Repr

/-- Everything observable about one delivery of a billing job. -/
structure RunResult where
  outcome : JobOutcome
  shippingCalls : List ShippingCall
  charges : List ChargeCall
  loggedProcessError : Option PipelineError
  db : PipeDB
  committed : Bool
  loggedPersistError : Bool
  alertInvoked : Bool
  jobMarkedFailed : Bool
deriving DecidableEq, Repr

/-- One delivery of a job: the worker processor runs `processPayment`,
catching any error, logging it and rethrowing a generic error naming the
queue (Worker.service.ts lines 70-88), which fails the job; on success the
`completed` event fires and the persistence handler runs. -/
def runJob (queueName : String) (env : Env)
    (pricingProducts : List ProductRow) (cfg : ShippingConfig)
    (persistProducts : List ProductRow) (customers : List Nat)
    (now : Nat) (db : PipeDB) (job : BillingJob) : RunResult :=
  let pr := processPayment env pricingProducts cfg job
  match pr.result with
  | .error e =>
    ⟨.failed (.workerWrapped queueName), pr.shippingCalls, pr.charges,
     some e, db, false, false, false, true⟩
  | .ok wr =>
    let h := onCompleted persistProducts customers env.subCreateFails now db job wr
    ⟨.completed wr, pr.shippingCalls, pr.charges, none, h.db,
     h.committed, h.loggedPersistError, h.alertInvoked, h.jobMarkedFailed⟩

/-- Two deliveries of the same job (queue-level at-least-once redelivery):
the gateway charge calls issued across both runs. -/
def twoDeliveryCharges (queueName : String) (env : Env)
    (pricingProducts : List ProductRow) (cfg : ShippingConfig)
    (persistProducts : List ProductRow) (customers : List Nat)
    (now : Nat) (db : PipeDB) (job : BillingJob) : List ChargeCall :=
  let r1 := runJob queueName env pricingProducts cfg persistProducts
    customers now db job
  let r2 := runJob queueName env pricingProducts cfg persistProducts
    customers now r1.db job
  r1.charges ++ r2.charges

/-! ## Concrete fixtures (the spec's end-to-end scenario) -/

/-- Product 5 priced at 20.00, weighing 1 unit. -/
def productsFix : List ProductRow := [⟨5, 20, 1⟩]

/-- Rate configuration making a US / next-day / standard-tier quote 9.99. -/
def cfgFix : ShippingConfig :=
  ⟨[("US", 999 / 100)], [("next-day", 1)], fun _ => 1, 1, 5⟩

/-- Environment where gateway and datastore both succeed. -/
def envOk : Env := ⟨false, false⟩

/-- Environment where the `Subscription.create` write fails. -/
def envSubFail : Env := ⟨false, true⟩

/-- The spec's end-to-end job: customer 1, one item of product 5 with
quantity 2, US destination, payload shipping method `"standard"`,
30-day period. -/
def jobFix : BillingJob :=
  ⟨1, 1, [⟨5, 2⟩], 77, "card", "usd", "US", "standard",
   100 * msPerDay, 500 * msPerDay, 30 * msPerDay⟩

/-- Empty persistence state. -/
def dbFix : PipeDB := ⟨[], [], [], 1⟩

/-- Customer 1 exists. -/
def customersFix : List Nat := [1]

/-! ## Inversion lemmas -/

/-- Equation for `processPayment` when a product lookup fails: no shipping
call, no charge. -/
theorem processPayment_eq_of_priceErr (env : Env) (products : List ProductRow)
    (cfg : ShippingConfig) (job : BillingJob) (e : PipelineError)
    (hsp : sumPrices products job.orderItems = .error e) :
    processPayment env products cfg job = ⟨.error e, [], []⟩ := by
  unfold processPayment
  rw [hsp]

/-- Equation for `processPayment` when the shipping lookup fails: one
shipping call, no charge. -/
theorem processPayment_eq_of_shipErr (env : Env) (products : List ProductRow)
    (cfg : ShippingConfig) (job : BillingJob) (pt : ℚ) (e : PipelineError)
    (hsp : sumPrices products job.orderItems = .ok pt)
    (hsc : calculateShippingCost cfg products job.shippingCountry "next-day"
      none job.orderItems = .error e) :
    processPayment env products cfg job =
      ⟨.error e, [⟨job.shippingCountry, "next-day"⟩], []⟩ := by
  unfold processPayment
  rw [hsp, hsc]

/-- Equation for `processPayment` when pricing succeeds: one shipping call
and one gateway charge over the rounded total. -/
theorem processPayment_eq_of (env : Env) (products : List ProductRow)
    (cfg : ShippingConfig) (job : BillingJob) (pt : ℚ) (quote : ShippingQuote)
    (hsp : sumPrices products job.orderItems = .ok pt)
    (hsc : calculateShippingCost cfg products job.shippingCountry "next-day"
      none job.orderItems = .ok quote) :
    processPayment env products cfg job =
      if env.paymentFails then
        ⟨.error .paymentFailed, [⟨job.shippingCountry, "next-day"⟩],
         [⟨job.userId, round2 (pt + quote.cost), job.currency,
           job.paymentMethodId⟩]⟩
      else
        ⟨.ok quote.weightRange, [⟨job.shippingCountry, "next-day"⟩],
         [⟨job.userId, round2 (pt + quote.cost), job.currency,
           job.paymentMethodId⟩]⟩ := by
  unfold processPayment
  rw [hsp, hsc]

/-- Inversion of a successful `processPayment` run: the gateway accepted, and
the issued calls are determined by the pricing results. -/
theorem processPayment_ok_inv (env : Env) (products : List ProductRow)
    (cfg : ShippingConfig) (job : BillingJob) (wr : WeightRange)
    (h : (processPayment env products cfg job).result = .ok wr) :
    env.paymentFails = false ∧
    ∃ pt quote, sumPrices products job.orderItems = .ok pt ∧
      calculateShippingCost cfg products job.shippingCountry "next-day" none
        job.orderItems = .ok quote ∧
      wr = quote.weightRange ∧
      (processPayment env products cfg job).charges =
        [⟨job.userId, round2 (pt + quote.cost), job.currency,
          job.paymentMethodId⟩] ∧
      (processPayment env products cfg job).shippingCalls =
        [⟨job.shippingCountry, "next-day"⟩] := by
  cases hsp : sumPrices products job.orderItems with
  | error e => rw [processPayment_eq_of_priceErr env products cfg job e hsp] at h; simp at h
  | ok pt =>
    cases hsc : calculateShippingCost cfg products job.shippingCountry
        "next-day" none job.orderItems with
    | error e =>
      rw [processPayment_eq_of_shipErr env products cfg job pt e hsp hsc] at h
      simp at h
    | ok quote =>
      rw [processPayment_eq_of env products cfg job pt quote hsp hsc] at h ⊢
      cases hpf : env.paymentFails with
      | true => rw [hpf] at h; simp at h
      | false =>
        rw [hpf] at h
        simp only [Bool.false_eq_true, if_false, Except.ok.injEq] at h
        exact ⟨rfl, pt, quote, rfl, rfl, by simp [h], by simp, by simp⟩

/-- Every shipping call `processPayment` issues targets the job's country
with the hard-coded method `"next-day"`. -/
theorem processPayment_shippingCalls (env : Env) (products : List ProductRow)
    (cfg : ShippingConfig) (job : BillingJob) :
    (processPayment env products cfg job).shippingCalls = [] ∨
    (processPayment env products cfg job).shippingCalls =
      [⟨job.shippingCountry, "next-day"⟩] := by
  unfold processPayment
  cases sumPrices products job.orderItems with
  | error e => left; rfl
  | ok pt =>
    cases calculateShippingCost cfg products job.shippingCountry "next-day"
        none job.orderItems with
    | error e => right; rfl
    | ok quote =>
      cases env.paymentFails
      · right; rfl
      · right; rfl

/-- Inversion of a successful `createOrder`: the transaction draft gains
exactly the new Order header and its items, and nothing else. -/
theorem createOrder_ok_inv (products : List ProductRow) (customers : List Nat)
    (db : PipeDB) (customerId : Nat) (items : List OrderItem)
    (pm sc : String) (wr : WeightRange) (sm : String)
    (draft : PipeDB) (order : OrderRow)
    (h : createOrder products customers db customerId items pm sc wr sm =
      .ok (draft, order)) :
    ∃ priced, snapshotPrices products items = .ok priced ∧
      customers.contains customerId = true ∧
      order = ⟨db.nextOrderId, customerId, pm, sc, wr, sm, .pending⟩ ∧
      draft = { db with
        orders := db.orders ++ [order],
        orderItems := db.orderItems ++
          priced.map (fun pr => ⟨order.id, pr.1.productId, pr.1.quantity, pr.2⟩),
        nextOrderId := db.nextOrderId + 1 } := by
  unfold createOrder at h
  cases hsp : snapshotPrices products items with
  | error e => rw [hsp] at h; simp at h
  | ok priced =>
    rw [hsp] at h
    cases hc : customers.contains customerId with
    | false => rw [hc] at h; simp at h
    | true =>
      rw [hc] at h
      simp only [if_true, Except.ok.injEq, Prod.mk.injEq] at h
      refine ⟨priced, rfl, rfl, h.2.symm, ?_⟩
      rw [← h.1, ← h.2]

/-- The completed-job handler either rolls back leaving the state untouched
(logging, not alerting, not failing the job), or commits the new Order and
its Subscription row together. -/
theorem onCompleted_spec (products : List ProductRow) (customers : List Nat)
    (subFails : Bool) (now : Nat) (db : PipeDB) (job : BillingJob)
    (wr : WeightRange) :
    onCompleted products customers subFails now db job wr =
      ⟨db, false, true, false, false⟩ ∨
    ∃ draft order,
      createOrder products customers db job.userId job.orderItems
        job.paymentMethod job.shippingCountry wr "next-day" =
        .ok (draft, order) ∧
      subFails = false ∧
      onCompleted products customers subFails now db job wr =
        ⟨{ draft with subscriptions := draft.subscriptions ++
            [⟨order.customerId, order.id, job.startDate, job.endDate,
              dayOf now, dayOf (now + job.period)⟩] },
          true, false, false, false⟩ := by
  unfold onCompleted
  cases hco : createOrder products customers db job.userId job.orderItems
      job.paymentMethod job.shippingCountry wr "next-day" with
  | error e => left; rfl
  | ok p =>
    obtain ⟨draft, order⟩ := p
    cases hsf : subFails with
    | true => left; rfl
    | false =>
      right
      exact ⟨draft, order, rfl, rfl, rfl⟩

/-- Equation for `runJob` when the processor throws: the job fails with the
generic wrapper error, the original error is only logged, nothing is
persisted. -/
theorem runJob_eq_of_procErr (queueName : String) (env : Env)
    (pricing : List ProductRow) (cfg : ShippingConfig)
    (persist : List ProductRow) (customers : List Nat) (now : Nat)
    (db : PipeDB) (job : BillingJob) (e : PipelineError)
    (h : (processPayment env pricing cfg job).result = .error e) :
    runJob queueName env pricing cfg persist customers now db job =
      ⟨.failed (.workerWrapped queueName),
       (processPayment env pricing cfg job).shippingCalls,
       (processPayment env pricing cfg job).charges,
       some e, db, false, false, false, true⟩ := by
  simp only [runJob, h]

/-- Equation for `runJob` when the processor succeeds: the `completed`
handler runs against the persistence state. -/
theorem runJob_eq_of_procOk (queueName : String) (env : Env)
    (pricing : List ProductRow) (cfg : ShippingConfig)
    (persist : List ProductRow) (customers : List Nat) (now : Nat)
    (db : PipeDB) (job : BillingJob) (wr : WeightRange)
    (h : (processPayment env pricing cfg job).result = .ok wr) :
    runJob queueName env pricing cfg persist customers now db job =
      ⟨.completed wr,
       (processPayment env pricing cfg job).shippingCalls,
       (processPayment env pricing cfg job).charges,
       none,
       (onCompleted persist customers env.subCreateFails now db job wr).db,
       (onCompleted persist customers env.subCreateFails now db job wr).committed,
       (onCompleted persist customers env.subCreateFails now db job wr).loggedPersistError,
       (onCompleted persist customers env.subCreateFails now db job wr).alertInvoked,
       (onCompleted persist customers env.subCreateFails now db job wr).jobMarkedFailed⟩ := by
  simp only [runJob, h]

/-! ## The claims -/

unseal Rat.mul Rat.add Rat.inv Rat.sub in
/-- Claim C1, counterexample. The claim says the charging step passes an
idempotency key equal to the job id, so processing the same job id twice
yields at most one gateway charge. On the spec's own end-to-end job the
charge call is identical for two different job ids (no argument carries the
job id), and two deliveries of the very same job issue two gateway charges,
refuting the claim at this concrete input. -/
theorem C1_counterexample :
    jobFix.id = 1 ∧
    (processPayment envOk productsFix cfgFix jobFix).charges =
      (processPayment envOk productsFix cfgFix { jobFix with id := 2 }).charges ∧
    (twoDeliveryCharges "billing" envOk productsFix cfgFix productsFix
        customersFix (200 * msPerDay) dbFix jobFix).length = 2 := by
  decide

/-- Claim C1, amended: the worker's charging step passes no idempotency key
at all — the gateway call consists of the customer id, amount, currency and
payment method id only, is unchanged under any change of the job id, and
queue-level redelivery of the same job issues a second identical charge
call. -/
theorem C1_theorem (env : Env) (products : List ProductRow)
    (cfg : ShippingConfig) (job : BillingJob) (a b : Nat)
    (queueName : String) (persist : List ProductRow) (customers : List Nat)
    (now : Nat) (db : PipeDB) :
    processPayment env products cfg { job with id := a } =
      processPayment env products cfg { job with id := b } ∧
    twoDeliveryCharges queueName env products cfg persist customers now db
        job =
      (processPayment env products cfg job).charges ++
        (processPayment env products cfg job).charges := by
  constructor
  · cases job
    rfl
  · unfold twoDeliveryCharges
    cases h : (processPayment env products cfg job).result with
    | error e =>
      have h1 := runJob_eq_of_procErr queueName env products cfg persist
        customers now db job e h
      simp only [h1]
    | ok wr =>
      have h1 := runJob_eq_of_procOk queueName env products cfg persist
        customers now db job wr h
      have h2 := runJob_eq_of_procOk queueName env products cfg persist
        customers now
        (onCompleted persist customers env.subCreateFails now db job wr).db
        job wr h
      simp only [h1, h2]

/-- Claim C2: an Order/Subscription pair is persisted only when the gateway
charge for the job succeeded, and the pair is written atomically — in every
final state either the state is completely unchanged or exactly one new
Order and one new Subscription referencing it exist. -/
theorem C2_theorem (queueName : String) (env : Env)
    (pricing : List ProductRow) (cfg : ShippingConfig)
    (persist : List ProductRow) (customers : List Nat) (now : Nat)
    (db : PipeDB) (job : BillingJob) :
    ((runJob queueName env pricing cfg persist customers now db job).db = db ∧
     (runJob queueName env pricing cfg persist customers now db
        job).committed = false) ∨
    ((runJob queueName env pricing cfg persist customers now db
        job).committed = true ∧
     env.paymentFails = false ∧
     (runJob queueName env pricing cfg persist customers now db job).charges
        ≠ [] ∧
     ∃ o s,
       (runJob queueName env pricing cfg persist customers now db
          job).db.orders = db.orders ++ [o] ∧
       (runJob queueName env pricing cfg persist customers now db
          job).db.subscriptions = db.subscriptions ++ [s] ∧
       s.orderId = o.id) := by
  cases h : (processPayment env pricing cfg job).result with
  | error e =>
    rw [runJob_eq_of_procErr queueName env pricing cfg persist customers now
      db job e h]
    left
    exact ⟨rfl, rfl⟩
  | ok wr =>
    rw [runJob_eq_of_procOk queueName env pricing cfg persist customers now
      db job wr h]
    obtain ⟨hpf, pt, quote, hsp, hsc, hwr, hch, hshc⟩ :=
      processPayment_ok_inv env pricing cfg job wr h
    rcases onCompleted_spec persist customers env.subCreateFails now db job
        wr with hro | ⟨draft, order, hco, hsf, hcommit⟩
    · rw [hro]
      left
      exact ⟨rfl, rfl⟩
    · rw [hcommit]
      obtain ⟨priced, hsnap, hcust, horder, hdraft⟩ :=
        createOrder_ok_inv persist customers db job.userId job.orderItems
          job.paymentMethod job.shippingCountry wr "next-day" draft order hco
      right
      refine ⟨rfl, hpf, by rw [hch]; simp, order,
        ⟨order.customerId, order.id, job.startDate, job.endDate, dayOf now,
         dayOf (now + job.period)⟩, ?_, ?_, rfl⟩
      · rw [hdraft]
      · rw [hdraft]

unseal Rat.mul Rat.add Rat.inv Rat.sub in
/-- Claim C3, counterexample. The claim says that when the charge succeeded
but persistence then fails, the job is marked failed and an out-of-band
alert/reconciliation path is invoked. On a concrete run where the gateway
charge is issued and accepted but the `Subscription.create` write fails, the
transaction does roll back, yet the job is not marked failed and no alert
path is invoked — the handler only logs. -/
theorem C3_counterexample :
    (runJob "billing" envSubFail productsFix cfgFix productsFix customersFix
        (200 * msPerDay) dbFix jobFix).charges ≠ [] ∧
    (runJob "billing" envSubFail productsFix cfgFix productsFix customersFix
        (200 * msPerDay) dbFix jobFix).committed = false ∧
    (runJob "billing" envSubFail productsFix cfgFix productsFix customersFix
        (200 * msPerDay) dbFix jobFix).loggedPersistError = true ∧
    (runJob "billing" envSubFail productsFix cfgFix productsFix customersFix
        (200 * msPerDay) dbFix jobFix).jobMarkedFailed = false ∧
    (runJob "billing" envSubFail productsFix cfgFix productsFix customersFix
        (200 * msPerDay) dbFix jobFix).alertInvoked = false := by
  decide

/-- Claim C3, amended: when the charge succeeded but order/subscription
persistence fails, the transaction is rolled back so no partial rows remain
and the error is logged, but the job is not marked failed and no
out-of-band alert or reconciliation path is invoked. -/
theorem C3_theorem (queueName : String) (env : Env)
    (pricing : List ProductRow) (cfg : ShippingConfig)
    (persist : List ProductRow) (customers : List Nat) (now : Nat)
    (db : PipeDB) (job : BillingJob) (wr : WeightRange)
    (hok : (processPayment env pricing cfg job).result = .ok wr)
    (hfail : (runJob queueName env pricing cfg persist customers now db
      job).committed = false) :
    (runJob queueName env pricing cfg persist customers now db job).db = db ∧
    (runJob queueName env pricing cfg persist customers now db
      job).loggedPersistError = true ∧
    (runJob queueName env pricing cfg persist customers now db
      job).alertInvoked = false ∧
    (runJob queueName env pricing cfg persist customers now db
      job).jobMarkedFailed = false := by
  rw [runJob_eq_of_procOk queueName env pricing cfg persist customers now db
    job wr hok] at hfail ⊢
  rcases onCompleted_spec persist customers env.subCreateFails now db job wr
      with hro | ⟨draft, order, hco, hsf, hcommit⟩
  · rw [hro]
    exact ⟨rfl, rfl, rfl, rfl⟩
  · rw [hcommit] at hfail
    simp at hfail

unseal Rat.mul Rat.add Rat.inv Rat.sub in
/-- Claim C3, witness: the amended statement instantiated on the concrete
charge-succeeded, subscription-write-fails run. -/
theorem C3_witness :
    (runJob "billing" envSubFail productsFix cfgFix productsFix customersFix
        (200 * msPerDay) dbFix jobFix).db = dbFix ∧
    (runJob "billing" envSubFail productsFix cfgFix productsFix customersFix
        (200 * msPerDay) dbFix jobFix).loggedPersistError = true ∧
    (runJob "billing" envSubFail productsFix cfgFix productsFix customersFix
        (200 * msPerDay) dbFix jobFix).alertInvoked = false ∧
    (runJob "billing" envSubFail productsFix cfgFix productsFix customersFix
        (200 * msPerDay) dbFix jobFix).jobMarkedFailed = false :=
  C3_theorem "billing" envSubFail productsFix cfgFix productsFix customersFix
    (200 * msPerDay) dbFix jobFix .standard (by decide) (by decide)

/-- Claim C4: for every billing job whose products all exist and whose
shipping quote succeeds, the amount submitted to the payment gateway equals
`round2` of the product total plus the shipping cost. -/
theorem C4_theorem (env : Env) (products : List ProductRow)
    (cfg : ShippingConfig) (job : BillingJob) (pt : ℚ) (quote : ShippingQuote)
    (hsp : sumPrices products job.orderItems = .ok pt)
    (hsc : calculateShippingCost cfg products job.shippingCountry "next-day"
      none job.orderItems = .ok quote) :
    (processPayment env products cfg job).charges =
      [⟨job.userId, round2 (pt + quote.cost), job.currency,
        job.paymentMethodId⟩] := by
  rw [processPayment_eq_of env products cfg job pt quote hsp hsc]
  cases hpf : env.paymentFails <;> simp

unseal Rat.mul Rat.add Rat.inv Rat.sub in
/-- Claim C4, witness: on the spec's end-to-end job (one item of quantity 2
at unit price 20.00, shipping 9.99) the gateway is charged exactly 49.99. -/
theorem C4_witness :
    sumPrices productsFix jobFix.orderItems = .ok 40 ∧
    calculateShippingCost cfgFix productsFix jobFix.shippingCountry
      "next-day" none jobFix.orderItems = .ok ⟨999 / 100, .standard⟩ ∧
    (processPayment envOk productsFix cfgFix jobFix).charges =
      [⟨1, round2 (40 + 999 / 100), "usd", 77⟩] ∧
    round2 (40 + 999 / 100) = 4999 / 100 :=
  ⟨by decide, by decide,
   C4_theorem envOk productsFix cfgFix jobFix 40 ⟨999 / 100, .standard⟩
     (by decide) (by decide),
   by decide⟩

/-- Any item list containing a product id with no product row makes
`sumPrices` fail with `ProductNotFoundError`. -/
theorem sumPrices_missing (products : List ProductRow)
    (items : List OrderItem)
    (h : ∃ item ∈ items,
      products.find? (fun p => p.id == item.productId) = none) :
    sumPrices products items = .error .productNotFound := by
  induction items with
  | nil => simp at h
  | cons a l ih =>
    unfold sumPrices
    rcases h with ⟨i, hi, hf⟩
    rcases List.mem_cons.mp hi with rfl | hil
    · rw [hf]
    · cases hfa : products.find? (fun p => p.id == a.productId) with
      | none => rfl
      | some p => rw [ih ⟨i, hil, hf⟩]

unseal Rat.mul Rat.add Rat.inv Rat.sub in
/-- Claim C5, counterexample. The claim says a job referencing a missing
product fails with `ProductNotFoundError`. On the concrete job with the
product row deleted, no charge is attempted and no Order is created, but
the job-level failure is the worker's generic wrapper error naming the
queue — the `ProductNotFoundError` is only logged, not surfaced as the
job's failure. -/
theorem C5_counterexample :
    (runJob "billing" envOk [] cfgFix productsFix customersFix
        (200 * msPerDay) dbFix jobFix).outcome =
      .failed (.workerWrapped "billing") ∧
    ¬ (runJob "billing" envOk [] cfgFix productsFix customersFix
        (200 * msPerDay) dbFix jobFix).outcome =
      .failed (.pipeline .productNotFound) ∧
    (runJob "billing" envOk [] cfgFix productsFix customersFix
        (200 * msPerDay) dbFix jobFix).loggedProcessError =
      some .productNotFound ∧
    (runJob "billing" envOk [] cfgFix productsFix customersFix
        (200 * msPerDay) dbFix jobFix).charges = [] ∧
    (runJob "billing" envOk [] cfgFix productsFix customersFix
        (200 * msPerDay) dbFix jobFix).db = dbFix := by
  decide

/-- Claim C5, amended: for every billing job referencing at least one
product id with no product row, the job fails — `processPayment` throws
`ProductNotFoundError`, which the worker logs and replaces with its generic
queue-named error — no payment charge is attempted, and no Order is
created. -/
theorem C5_theorem (queueName : String) (env : Env)
    (products : List ProductRow) (cfg : ShippingConfig)
    (persist : List ProductRow) (customers : List Nat) (now : Nat)
    (db : PipeDB) (job : BillingJob)
    (h : ∃ item ∈ job.orderItems,
      products.find? (fun p => p.id == item.productId) = none) :
    (runJob queueName env products cfg persist customers now db job).outcome =
      .failed (.workerWrapped queueName) ∧
    (runJob queueName env products cfg persist customers now db
      job).loggedProcessError = some .productNotFound ∧
    (runJob queueName env products cfg persist customers now db job).charges
      = [] ∧
    (runJob queueName env products cfg persist customers now db job).db =
      db := by
  have hsp := sumPrices_missing products job.orderItems h
  have hpp :=
    processPayment_eq_of_priceErr env products cfg job .productNotFound hsp
  have hres : (processPayment env products cfg job).result =
      .error .productNotFound := by rw [hpp]
  rw [runJob_eq_of_procErr queueName env products cfg persist customers now
    db job .productNotFound hres, hpp]
  exact ⟨rfl, rfl, rfl, rfl⟩

/-- Claim C5, witness: the amended statement instantiated on the concrete
job whose product row is absent. -/
theorem C5_witness :
    (runJob "billing" envOk [] cfgFix productsFix customersFix
        (200 * msPerDay) dbFix jobFix).outcome =
      .failed (.workerWrapped "billing") ∧
    (runJob "billing" envOk [] cfgFix productsFix customersFix
        (200 * msPerDay) dbFix jobFix).loggedProcessError =
      some .productNotFound ∧
    (runJob "billing" envOk [] cfgFix productsFix customersFix
        (200 * msPerDay) dbFix jobFix).charges = [] ∧
    (runJob "billing" envOk [] cfgFix productsFix customersFix
        (200 * msPerDay) dbFix jobFix).db = dbFix :=
  C5_theorem "billing" envOk [] cfgFix productsFix customersFix
    (200 * msPerDay) dbFix jobFix ⟨⟨5, 2⟩, by decide, rfl⟩

/-- A job run's shipping calls are exactly the processor's. -/
theorem runJob_shippingCalls_eq (queueName : String) (env : Env)
    (pricing : List ProductRow) (cfg : ShippingConfig)
    (persist : List ProductRow) (customers : List Nat) (now : Nat)
    (db : PipeDB) (job : BillingJob) :
    (runJob queueName env pricing cfg persist customers now db
      job).shippingCalls = (processPayment env pricing cfg job).shippingCalls
    := by
  cases h : (processPayment env pricing cfg job).result with
  | error e =>
    rw [runJob_eq_of_procErr queueName env pricing cfg persist customers now
      db job e h]
  | ok wr =>
    rw [runJob_eq_of_procOk queueName env pricing cfg persist customers now
      db job wr h]

unseal Rat.mul Rat.add Rat.inv Rat.sub in
/-- Claim C7, counterexample. The claim says the worker calls the shipping
calculator with the shipping method stored in the job payload, for every
possible method value. On the concrete job whose payload method is
`"standard"`, the calculator is called with the hard-coded `"next-day"`
instead, and the created Order also carries `"next-day"`. -/
theorem C7_counterexample :
    jobFix.shippingMethod = "standard" ∧
    (processPayment envOk productsFix cfgFix jobFix).shippingCalls =
      [⟨"US", "next-day"⟩] ∧
    ¬ (processPayment envOk productsFix cfgFix jobFix).shippingCalls =
      [⟨jobFix.shippingCountry, jobFix.shippingMethod⟩] ∧
    (runJob "billing" envOk productsFix cfgFix productsFix customersFix
        (200 * msPerDay) dbFix jobFix).db.orders.map
      (fun o => o.shippingMethod) = ["next-day"] := by
  decide

/-- Claim C7, amended: the worker calls the Shipping Cost Calculator with
the job payload's shipping destination but with the constant method
`"next-day"`, whatever shipping method the payload carries, and every Order
it creates also carries `"next-day"`. -/
theorem C7_theorem (queueName : String) (env : Env)
    (pricing : List ProductRow) (cfg : ShippingConfig)
    (persist : List ProductRow) (customers : List Nat) (now : Nat)
    (db : PipeDB) (job : BillingJob) :
    (∀ c ∈ (runJob queueName env pricing cfg persist customers now db
        job).shippingCalls, c = ⟨job.shippingCountry, "next-day"⟩) ∧
    (∀ o ∈ (runJob queueName env pricing cfg persist customers now db
        job).db.orders, o ∈ db.orders ∨ o.shippingMethod = "next-day") := by
  constructor
  · intro c hc
    rw [runJob_shippingCalls_eq queueName env pricing cfg persist customers
      now db job] at hc
    rcases processPayment_shippingCalls env pricing cfg job with h0 | h1
    · rw [h0] at hc
      cases hc
    · rw [h1] at hc
      simpa using hc
  · intro o ho
    cases h : (processPayment env pricing cfg job).result with
    | error e =>
      rw [runJob_eq_of_procErr queueName env pricing cfg persist customers
        now db job e h] at ho
      exact .inl ho
    | ok wr =>
      rw [runJob_eq_of_procOk queueName env pricing cfg persist customers
        now db job wr h] at ho
      rcases onCompleted_spec persist customers env.subCreateFails now db
          job wr with hro | ⟨draft, order, hco, hsf, hcommit⟩
      · rw [hro] at ho
        exact .inl ho
      · rw [hcommit] at ho
        obtain ⟨priced, hsnap, hcust, horder, hdraft⟩ :=
          createOrder_ok_inv persist customers db job.userId job.orderItems
            job.paymentMethod job.shippingCountry wr "next-day" draft order
            hco
        rw [hdraft] at ho
        simp only [List.mem_append, List.mem_singleton] at ho
        rcases ho with h1 | h2
        · exact .inl h1
        · right
          rw [h2, horder]

unseal Rat.mul Rat.add Rat.inv Rat.sub in
/-- Claim C7, witness: the amended statement instantiated on the concrete
committed run, together with the concrete call list showing a call was in
fact made. -/
theorem C7_witness :
    (runJob "billing" envOk productsFix cfgFix productsFix customersFix
        (200 * msPerDay) dbFix jobFix).shippingCalls =
      [⟨"US", "next-day"⟩] ∧
    (∀ c ∈ (runJob "billing" envOk productsFix cfgFix productsFix
        customersFix (200 * msPerDay) dbFix jobFix).shippingCalls,
      c = ⟨jobFix.shippingCountry, "next-day"⟩) ∧
    (∀ o ∈ (runJob "billing" envOk productsFix cfgFix productsFix
        customersFix (200 * msPerDay) dbFix jobFix).db.orders,
      o ∈ dbFix.orders ∨ o.shippingMethod = "next-day") :=
  ⟨by decide,
   ( C7_theorem "billing" envOk productsFix cfgFix productsFix customersFix
     (200 * msPerDay) dbFix jobFix).1,
   ( C7_theorem "billing" envOk productsFix cfgFix productsFix customersFix
     (200 * msPerDay) dbFix jobFix).2⟩

/-- Claim C8: for every successfully charged and committed billing job, the
new Subscription row has `lastPaymentDate` equal to the current date at
persistence time, and — for a billing period of `d` whole days —
`nextPaymentDate` equal to that date plus `d`. -/
theorem C8_theorem (queueName : String) (env : Env)
    (pricing : List ProductRow) (cfg : ShippingConfig)
    (persist : List ProductRow) (customers : List Nat) (now : Nat)
    (db : PipeDB) (job : BillingJob) (d : Nat)
    (hper : job.period = d * msPerDay)
    (hcommit : (runJob queueName env pricing cfg persist customers now db
      job).committed = true) :
    ∃ o s,
      (runJob queueName env pricing cfg persist customers now db
        job).db.orders = db.orders ++ [o] ∧
      (runJob queueName env pricing cfg persist customers now db
        job).db.subscriptions = db.subscriptions ++ [s] ∧
      s.orderId = o.id ∧
      s.lastPaymentDate = dayOf now ∧
      s.nextPaymentDate = s.lastPaymentDate + d := by
  cases h : (processPayment env pricing cfg job).result with
  | error e =>
    rw [runJob_eq_of_procErr queueName env pricing cfg persist customers now
      db job e h] at hcommit
    simp at hcommit
  | ok wr =>
    rw [runJob_eq_of_procOk queueName env pricing cfg persist customers now
      db job wr h] at hcommit ⊢
    rcases onCompleted_spec persist customers env.subCreateFails now db job
        wr with hro | ⟨draft, order, hco, hsf, hcommit2⟩
    · rw [hro] at hcommit
      simp at hcommit
    · rw [hcommit2]
      obtain ⟨priced, hsnap, hcust, horder, hdraft⟩ :=
        createOrder_ok_inv persist customers db job.userId job.orderItems
          job.paymentMethod job.shippingCountry wr "next-day" draft order hco
      refine ⟨order,
        ⟨order.customerId, order.id, job.startDate, job.endDate, dayOf now,
         dayOf (now + job.period)⟩, ?_, ?_, rfl, rfl, ?_⟩
      · rw [hdraft]
      · rw [hdraft]
      · show dayOf (now + job.period) = dayOf now + d
        rw [hper]
        unfold dayOf
        exact Nat.add_mul_div_right now d (by decide)

unseal Rat.mul Rat.add Rat.inv Rat.sub in
/-- Claim C8, witness: on the concrete committed run with a 30-day period
and `now` at day 200, the Subscription has `lastPaymentDate = 200` and
`nextPaymentDate = 230`. -/
theorem C8_witness :
    ∃ o s,
      (runJob "billing" envOk productsFix cfgFix productsFix customersFix
        (200 * msPerDay) dbFix jobFix).db.orders = dbFix.orders ++ [o] ∧
      (runJob "billing" envOk productsFix cfgFix productsFix customersFix
        (200 * msPerDay) dbFix jobFix).db.subscriptions =
        dbFix.subscriptions ++ [s] ∧
      s.orderId = o.id ∧
      s.lastPaymentDate = dayOf (200 * msPerDay) ∧
      s.nextPaymentDate = s.lastPaymentDate + 30 :=
  C8_theorem "billing" envOk productsFix cfgFix productsFix customersFix
    (200 * msPerDay) dbFix jobFix 30 (by decide) (by decide)

/-! ## Cart service lemmas -/

/-- Equation for `addItemToCart` when `findOrCreate` finds a row holding the
product (in whatever cart): that row's quantity is bumped in place. -/
theorem addItemToCart_eq_found (db : CartDB)
    (customerId productId quantity : Nat) (cart : CartRow)
    (item : CartItemRow)
    (hcart : db.carts.find? (fun c => c.customerId == customerId) =
      some cart)
    (hitem : db.items.find? (fun i => i.productId == productId) = some item) :
    addItemToCart db customerId productId quantity =
      .ok { db with items := db.items.map (fun i =>
        if i.id == item.id then { i with quantity := i.quantity + quantity }
        else i) } := by
  unfold addItemToCart
  rw [hcart, hitem]

/-- Equation for `addItemToCart` when no row holds the product: a fresh row
scoped to the caller's cart is inserted. -/
theorem addItemToCart_eq_new (db : CartDB)
    (customerId productId quantity : Nat) (cart : CartRow)
    (hcart : db.carts.find? (fun c => c.customerId == customerId) =
      some cart)
    (hnone : db.items.find? (fun i => i.productId == productId) = none) :
    addItemToCart db customerId productId quantity =
      .ok { db with
        items := db.items ++ [⟨db.nextItemId, cart.id, productId, quantity⟩],
        nextItemId := db.nextItemId + 1 } := by
  unfold addItemToCart
  rw [hcart, hnone]

/-- After appending the freshly inserted row and bumping it by its primary
key, the rows holding the product are exactly the new row with the summed
quantity. -/
theorem addItem_bump_filter (l : List CartItemRow) (nid cid pid q1 q2 : Nat)
    (hnone : ∀ i ∈ l, i.productId ≠ pid) (hids : ∀ i ∈ l, i.id < nid) :
    ((l ++ [(⟨nid, cid, pid, q1⟩ : CartItemRow)]).map (fun i =>
        if i.id == nid then { i with quantity := i.quantity + q2 } else
          i)).filter
      (fun i => i.productId == pid) = [⟨nid, cid, pid, q1 + q2⟩] := by
  induction l with
  | nil => simp
  | cons a l ih =>
    have ha := hnone a (List.mem_cons_self a l)
    have hia := hids a (List.mem_cons_self a l)
    have hane : (a.id == nid) = false := by
      simp only [beq_eq_false_iff_ne, ne_eq]
      exact Nat.ne_of_lt hia
    have hapid : (a.productId == pid) = false := by
      simp only [beq_eq_false_iff_ne, ne_eq]
      exact ha
    simp only [List.cons_append, List.map_cons, hane, Bool.false_eq_true,
      if_false, List.filter_cons, hapid]
    exact ih (fun i hi => hnone i (List.mem_cons_of_mem a hi))
      (fun i hi => hids i (List.mem_cons_of_mem a hi))

/-- Claim C6: starting from a state where the customer has a cart and no
cart holds the product yet, two `addItemToCart` calls by the same customer
for the same product leave exactly one CartItem holding that product; it
belongs to the customer's cart and its quantity is the sum of the two
calls' quantities. -/
theorem C6_theorem (db : CartDB) (customerId productId q1 q2 : Nat)
    (cart : CartRow)
    (hcart : db.carts.find? (fun c => c.customerId == customerId) =
      some cart)
    (hnone : ∀ i ∈ db.items, i.productId ≠ productId)
    (hids : ∀ i ∈ db.items, i.id < db.nextItemId) :
    ∃ db1 db2,
      addItemToCart db customerId productId q1 = .ok db1 ∧
      addItemToCart db1 customerId productId q2 = .ok db2 ∧
      db2.items.filter (fun i => i.productId == productId) =
        [⟨db.nextItemId, cart.id, productId, q1 + q2⟩] := by
  have hfnone : db.items.find? (fun i => i.productId == productId) = none :=
    List.find?_eq_none.mpr (fun i hi => by simp [hnone i hi])
  have hf2 : (db.items ++
      [(⟨db.nextItemId, cart.id, productId, q1⟩ : CartItemRow)]).find?
      (fun i => i.productId == productId) =
      some (⟨db.nextItemId, cart.id, productId, q1⟩ : CartItemRow) := by
    rw [List.find?_append, hfnone]
    simp
  refine ⟨_, _,
    addItemToCart_eq_new db customerId productId q1 cart hcart hfnone,
    addItemToCart_eq_found _ customerId productId q2 cart
      ⟨db.nextItemId, cart.id, productId, q1⟩ hcart hf2, ?_⟩
  exact addItem_bump_filter db.items db.nextItemId cart.id productId q1 q2
    hnone hids

/-- Claim C6, witness: from an empty cart, adding product 5 with quantity 2
and then quantity 5 leaves one row with quantity 5. -/
theorem C6_witness :
    ∃ db1 db2,
      addItemToCart ⟨[⟨1, 1⟩], [], 0⟩ 1 5 2 = .ok db1 ∧
      addItemToCart db1 1 5 3 = .ok db2 ∧
      db2.items.filter (fun i => i.productId == 5) = [⟨0, 1, 5, 5⟩] :=
  C6_theorem ⟨[⟨1, 1⟩], [], 0⟩ 1 5 2 3 ⟨1, 1⟩ (by decide) (by decide)
    (by decide)

/-- Claim C10: `addItemToCart` locates the line item by `productId` alone.
Starting from a state where no cart holds the product, after customer `c1`
adds it, a call by a different customer `c2` increments the row in `c1`'s
cart instead of creating one in `c2`'s cart: exactly one row holding the
product exists, it lies in `c1`'s cart with the summed quantity, and the
second call inserted nothing. -/
theorem C10_theorem (db : CartDB) (c1 c2 productId q1 q2 : Nat)
    (cart1 cart2 : CartRow)
    (hne : c1 ≠ c2)
    (hcart1 : db.carts.find? (fun c => c.customerId == c1) = some cart1)
    (hcart2 : db.carts.find? (fun c => c.customerId == c2) = some cart2)
    (hnone : ∀ i ∈ db.items, i.productId ≠ productId)
    (hids : ∀ i ∈ db.items, i.id < db.nextItemId) :
    ∃ db1 db2,
      addItemToCart db c1 productId q1 = .ok db1 ∧
      addItemToCart db1 c2 productId q2 = .ok db2 ∧
      db2.items.filter (fun i => i.productId == productId) =
        [⟨db.nextItemId, cart1.id, productId, q1 + q2⟩] ∧
      db2.items.length = db.items.length + 1 := by
  have hfnone : db.items.find? (fun i => i.productId == productId) = none :=
    List.find?_eq_none.mpr (fun i hi => by simp [hnone i hi])
  have hf2 : (db.items ++
      [(⟨db.nextItemId, cart1.id, productId, q1⟩ : CartItemRow)]).find?
      (fun i => i.productId == productId) =
      some (⟨db.nextItemId, cart1.id, productId, q1⟩ : CartItemRow) := by
    rw [List.find?_append, hfnone]
    simp
  refine ⟨_, _,
    addItemToCart_eq_new db c1 productId q1 cart1 hcart1 hfnone,
    addItemToCart_eq_found _ c2 productId q2 cart2
      ⟨db.nextItemId, cart1.id, productId, q1⟩ hcart2 hf2, ?_, ?_⟩
  · exact addItem_bump_filter db.items db.nextItemId cart1.id productId q1
      q2 hnone hids
  · simp

/-- Claim C10, witness: with carts for customers 1 and 2 and no rows,
customer 1 adds product 5 (quantity 2), then customer 2 adds the same
product (quantity 3): the single resulting row lies in customer 1's cart
with quantity 5, and customer 2's call inserted no row. -/
theorem C10_witness :
    ∃ db1 db2,
      addItemToCart ⟨[⟨1, 1⟩, ⟨2, 2⟩], [], 0⟩ 1 5 2 = .ok db1 ∧
      addItemToCart db1 2 5 3 = .ok db2 ∧
      db2.items.filter (fun i => i.productId == 5) = [⟨0, 1, 5, 5⟩] ∧
      db2.items.length = 1 :=
  C10_theorem ⟨[⟨1, 1⟩, ⟨2, 2⟩], [], 0⟩ 1 2 5 2 3 ⟨1, 1⟩ ⟨2, 2⟩ (by decide)
    (by decide) (by decide) (by decide) (by decide)

/-- Equation for `removeItemFromCart` when the item is absent from the
customer's cart. -/
theorem removeItem_eq_notfound (db : CartDB) (customerId productId : Nat)
    (cart : CartRow)
    (hcart : db.carts.find? (fun c => c.customerId == customerId) =
      some cart)
    (hnone : db.items.find?
      (fun i => i.cartId == cart.id && i.productId == productId) = none) :
    removeItemFromCart db customerId productId = .error .cartItemNotFound
    := by
  unfold removeItemFromCart
  simp only [hcart, hnone]

/-- Equation for `removeItemFromCart` when the item is present with
quantity above one: decrement in place. -/
theorem removeItem_eq_dec (db : CartDB) (customerId productId : Nat)
    (cart : CartRow) (item : CartItemRow)
    (hcart : db.carts.find? (fun c => c.customerId == customerId) =
      some cart)
    (hitem : db.items.find?
      (fun i => i.cartId == cart.id && i.productId == productId) =
      some item)
    (hq : 1 < item.quantity) :
    removeItemFromCart db customerId productId =
      .ok { db with items := db.items.map (fun i =>
        if i.id == item.id then { i with quantity := i.quantity - 1 }
        else i) } := by
  unfold removeItemFromCart
  simp only [hcart, hitem]
  rw [if_pos hq]

/-- Equation for `removeItemFromCart` when the item is present with
quantity one: the row is destroyed (the stray `save` after `destroy` is an
update of a deleted key, a no-op). -/
theorem removeItem_eq_del (db : CartDB) (customerId productId : Nat)
    (cart : CartRow) (item : CartItemRow)
    (hcart : db.carts.find? (fun c => c.customerId == customerId) =
      some cart)
    (hitem : db.items.find?
      (fun i => i.cartId == cart.id && i.productId == productId) =
      some item)
    (hq : ¬ 1 < item.quantity) :
    removeItemFromCart db customerId productId =
      .ok { db with
        items := db.items.filter (fun i => !(i.id == item.id)) } := by
  unfold removeItemFromCart
  simp only [hcart, hitem]
  rw [if_neg hq]

/-- Removing the one row with a given primary key shortens the list by
exactly one when keys are pairwise distinct. -/
theorem filter_ne_id_length (l : List CartItemRow) (x : CartItemRow)
    (hx : x ∈ l) (hp : l.Pairwise (fun a b => a.id ≠ b.id)) :
    (l.filter (fun i => !(i.id == x.id))).length + 1 = l.length := by
  induction l with
  | nil => cases hx
  | cons a l ih =>
    obtain ⟨hhead, htail⟩ := List.pairwise_cons.mp hp
    rcases List.mem_cons.mp hx with rfl | hxl
    · have hall : l.filter (fun i => !(i.id == x.id)) = l :=
        List.filter_eq_self.mpr (fun i hi => by
          simp only [Bool.not_eq_true', beq_eq_false_iff_ne, ne_eq]
          exact fun he => hhead i hi he.symm)
      simp [List.filter_cons, hall]
    · have hax : (a.id == x.id) = false := by
        simp only [beq_eq_false_iff_ne, ne_eq]
        exact hhead x hxl
      simp only [List.filter_cons, hax, Bool.not_false, if_true,
        List.length_cons]
      rw [ih hxl htail]

/-- Claim C9: with the customer's cart present, under the primary-key and
at-most-one-row-per-(cart, product) invariants, `removeItemFromCart`
decrements a quantity above one in place without deleting the row, deletes
the row outright at quantity one, and fails with `CartItemNotFoundError`
when the product is not in the cart. -/
theorem C9_theorem (db : CartDB) (customerId productId : Nat)
    (cart : CartRow)
    (hcart : db.carts.find? (fun c => c.customerId == customerId) =
      some cart)
    (hpk : db.items.Pairwise (fun a b => a.id ≠ b.id))
    (huniq : ∀ i ∈ db.items, ∀ j ∈ db.items,
      (i.cartId == cart.id && i.productId == productId) = true →
      (j.cartId == cart.id && j.productId == productId) = true → i = j) :
    (∀ item, db.items.find?
        (fun i => i.cartId == cart.id && i.productId == productId) =
        some item →
      (1 < item.quantity →
        ∃ db2, removeItemFromCart db customerId productId = .ok db2 ∧
          db2.items.length = db.items.length ∧
          db2.items.find?
            (fun i => i.cartId == cart.id && i.productId == productId) =
            some { item with quantity := item.quantity - 1 }) ∧
      (item.quantity = 1 →
        ∃ db2, removeItemFromCart db customerId productId = .ok db2 ∧
          db2.items.length + 1 = db.items.length ∧
          db2.items.find?
            (fun i => i.cartId == cart.id && i.productId == productId) =
            none)) ∧
    (db.items.find?
        (fun i => i.cartId == cart.id && i.productId == productId) = none →
      removeItemFromCart db customerId productId =
        .error .cartItemNotFound) := by
  constructor
  · intro item hitem
    have hmem : item ∈ db.items := List.mem_of_find?_eq_some hitem
    have hpitem := List.find?_some hitem
    constructor
    · intro hq
      refine ⟨_, removeItem_eq_dec db customerId productId cart item hcart
        hitem hq, ?_, ?_⟩
      · simp
      · have hcomp : ((fun i : CartItemRow =>
            i.cartId == cart.id && i.productId == productId) ∘
            (fun i => if i.id == item.id then
              { i with quantity := i.quantity - 1 } else i)) =
            (fun i : CartItemRow =>
              i.cartId == cart.id && i.productId == productId) := by
          funext i
          by_cases hii : i.id = item.id
          · simp [hii]
          · simp [hii]
        show (db.items.map _).find? _ = _
        rw [List.find?_map, hcomp, hitem]
        simp
    · intro hq1
      have hq : ¬ 1 < item.quantity := by omega
      refine ⟨_, removeItem_eq_del db customerId productId cart item hcart
        hitem hq, ?_, ?_⟩
      · exact filter_ne_id_length db.items item hmem hpk
      · refine List.find?_eq_none.mpr ?_
        intro j hj
        obtain ⟨hjl, hjne⟩ := List.mem_filter.mp hj
        intro hpj
        have : j = item := huniq j hjl item hmem hpj hpitem
        rw [this] at hjne
        simp at hjne
  · intro hnone
    exact removeItem_eq_notfound db customerId productId cart hcart hnone

/-- Claim C9, witness: in a cart holding product 5 at quantity 3 and
product 7 at quantity 1, removing product 5 decrements to 2 keeping both
rows, removing product 7 deletes its row, and removing the absent product 9
fails with `CartItemNotFoundError`. -/
theorem C9_witness :
    (∃ db2, removeItemFromCart ⟨[⟨1, 1⟩], [⟨1, 1, 5, 3⟩, ⟨2, 1, 7, 1⟩], 3⟩
        1 5 = .ok db2 ∧
      db2.items.length = 2 ∧
      db2.items.find? (fun i => i.cartId == 1 && i.productId == 5) =
        some ⟨1, 1, 5, 2⟩) ∧
    (∃ db2, removeItemFromCart ⟨[⟨1, 1⟩], [⟨1, 1, 5, 3⟩, ⟨2, 1, 7, 1⟩], 3⟩
        1 7 = .ok db2 ∧
      db2.items.length + 1 = 2 ∧
      db2.items.find? (fun i => i.cartId == 1 && i.productId == 7) = none) ∧
    removeItemFromCart ⟨[⟨1, 1⟩], [⟨1, 1, 5, 3⟩, ⟨2, 1, 7, 1⟩], 3⟩ 1 9 =
      .error .cartItemNotFound :=
  ⟨((C9_theorem ⟨[⟨1, 1⟩], [⟨1, 1, 5, 3⟩, ⟨2, 1, 7, 1⟩], 3⟩ 1 5 ⟨1, 1⟩
      (by decide) (by decide) (by decide)).1 ⟨1, 1, 5, 3⟩ (by decide)).1
      (by decide),
   ((C9_theorem ⟨[⟨1, 1⟩], [⟨1, 1, 5, 3⟩, ⟨2, 1, 7, 1⟩], 3⟩ 1 7 ⟨1, 1⟩
      (by decide) (by decide) (by decide)).1 ⟨2, 1, 7, 1⟩ (by decide)).2
      (by decide),
   (C9_theorem ⟨[⟨1, 1⟩], [⟨1, 1, 5, 3⟩, ⟨2, 1, 7, 1⟩], 3⟩ 1 9 ⟨1, 1⟩
      (by decide) (by decide) (by decide)).2 (by decide)⟩

end EdgeTech
